import Mathlib

/-
Verification of the data-streaming repository against its specification.

The repository is an AWS-SQS-to-Kafka streaming application.  The parts
present in the source tree are the React frontend (topic-creation form,
dashboard chart, API client with interceptors, router) and the project
documentation; the backend stream-processor engine described by the
specification is documented but its implementation is not in the tree, so
the engine is modelled here directly from the specification's words.

Frontend JavaScript is embedded shallowly: JS numbers that matter here are
either NaN or integers, and fallible parsing returns NaN exactly as
JavaScript's parseInt does on a string with no leading digits.
-/

namespace DataStreaming

/-- JavaScript number as it occurs in the topic form: NaN or an integer. -/
inductive JSNum where
  | nan : JSNum
  | num : Int → JSNum
deriving DecidableEq

/-- JavaScript comparison x < b for an integer literal b: any comparison
with NaN is false. -/
def JSNum.ltNum : JSNum → Int → Bool
  | JSNum.nan, _ => false
  | JSNum.num a, b => decide (a < b)

/-- Longest leading run of decimal digits. -/
def leadingDigits : List Char → List Char
  | [] => []
  | c :: cs => if c.isDigit then c :: leadingDigits cs else []

/-- Numeric value of a digit string. -/
def digitsToNat (ds : List Char) : Nat :=
  ds.foldl (fun a c => 10 * a + (c.toNat - 48)) 0

/-- JavaScript parseInt(value, 10): skip leading spaces, optional sign,
then the longest run of digits; NaN when there is no digit. -/
def parseInt (s : String) : JSNum :=
  let cs := s.data.dropWhile (fun c => c == ' ')
  match cs with
  | [] => JSNum.nan
  | c :: rest =>
    if c == '-' then
      match leadingDigits rest with
      | [] => JSNum.nan
      | ds => JSNum.num (-(digitsToNat ds : Int))
    else if c == '+' then
      match leadingDigits rest with
      | [] => JSNum.nan
      | ds => JSNum.num (digitsToNat ds)
    else
      match leadingDigits cs with
      | [] => JSNum.nan
      | ds => JSNum.num (digitsToNat ds)

/-- The newTopic state of the Topics page create-topic dialog. -/
structure NewTopic where
  name : String
  partitions : JSNum
  replication : JSNum
deriving DecidableEq

/-- Character class of the regex in validateForm: [a-zA-Z0-9._-]. -/
def topicNameCharOk (c : Char) : Bool :=
  c.isAlpha || c.isDigit || c == '.' || c == '_' || c == '-'

/-- Test of the anchored regex in validateForm: one or more characters,
all from the class above. -/
def topicNameMatches (s : String) : Bool :=
  !s.data.isEmpty && s.data.all topicNameCharOk

/-- validateForm of the Topics page: rejects an empty name, a name with a
character outside the regex class, partitions < 1, replication < 1; accepts
everything else.  JS comparison semantics: NaN < 1 is false. -/
def validateForm (t : NewTopic) : Bool :=
  if t.name == "" then false
  else if !(topicNameMatches t.name) then false
  else if JSNum.ltNum t.partitions 1 then false
  else if JSNum.ltNum t.replication 1 then false
  else true

/-- handleInputChange of the Topics page: the name field stores the raw
string; the partitions and replication fields store parseInt(value, 10). -/
def handleInputChange (t : NewTopic) (field value : String) : NewTopic :=
  if field == "name" then { t with name := value }
  else if field == "partitions" then { t with partitions := parseInt value }
  else if field == "replication" then { t with replication := parseInt value }
  else t

/-- The topic naming grammar stated by the specification and by the
repository's user guide: 1 to 249 characters from alphanumerics plus
dot, underscore, hyphen; not equal to "." or ".."; not starting with
"." or "_". -/
def specTopicNameOk (s : String) : Bool :=
  decide (1 ≤ s.data.length) && decide (s.data.length ≤ 249)
    && s.data.all topicNameCharOk
    && !(s.data == ['.']) && !(s.data == ['.', '.'])
    && !(s.data.headD ' ' == '.') && !(s.data.headD ' ' == '_')

/-- Chart state of the Dashboard page: labels plus the two datasets. -/
structure ChartData where
  labels : List String
  messagesData : List Nat
  errorsData : List Nat
deriving DecidableEq

/-- The two metric fields the Dashboard chart reads from a metrics
response. -/
structure MetricsSnapshot where
  messages_processed : Nat
  processing_errors : Nat
deriving DecidableEq

/-- JavaScript Array.prototype.slice with a negative argument -n: keep the
last n elements (the whole array when shorter than n). -/
def sliceLast (n : Nat) (l : List α) : List α := l.drop (l.length - n)

/-- updateChartData of the Dashboard page: append the new point to each
series and keep only the last 10 entries. -/
def updateChartData (prev : ChartData) (m : MetricsSnapshot) (now : String) :
    ChartData :=
  { labels := sliceLast 10 (prev.labels ++ [now])
    messagesData := sliceLast 10 (prev.messagesData ++ [m.messages_processed])
    errorsData := sliceLast 10 (prev.errorsData ++ [m.processing_errors]) }

/-- Initial chart state of the Dashboard page: empty series. -/
def initialChartData : ChartData :=
  { labels := [], messagesData := [], errorsData := [] }

/-- A sequence of fetch cycles, each applying updateChartData once. -/
def runChartUpdates (samples : List (MetricsSnapshot × String)) : ChartData :=
  samples.foldl (fun cd s => updateChartData cd s.1 s.2) initialChartData

/-- Browser-side state the response interceptor touches: the stored user
entry of localStorage and the window location. -/
structure ClientState where
  storedUser : Option String
  locationHref : String
deriving DecidableEq

/-- An axios error as the interceptor sees it: the HTTP status of the
response when a response is present. -/
structure ApiError where
  responseStatus : Option Nat
deriving DecidableEq

/-- The 401 test of the response interceptor: error.response exists and
error.response.status equals 401. -/
def is401 (e : ApiError) : Bool :=
  match e.responseStatus with
  | some s => s == 401
  | none => false

/-- The error branch of the axios response interceptor in ApiService: on a
401 response it removes the stored user and redirects to the admin login
page; in every case it rejects with the original error. -/
def responseErrorInterceptor (st : ClientState) (e : ApiError) :
    ClientState × ApiError :=
  if is401 e then
    ({ storedUser := none, locationHref := "/admin/login" }, e)
  else (st, e)

/-- The pages App.js can render. -/
inductive Page where
  | dashboard
  | streamingStatus
  | topics
  | streamingApps
  | help
  | adminLogin
  | adminDashboard
deriving DecidableEq

/-- Result of resolving a path: render a page or navigate elsewhere. -/
inductive RouteResult where
  | render : Page → RouteResult
  | navigate : String → RouteResult
deriving DecidableEq

/-- The route table of App.js, with the login-dependent admin routes and
the catch-all redirect to the root. -/
def appRoute (isLoggedIn : Bool) (path : String) : RouteResult :=
  if path == "/" then RouteResult.render Page.dashboard
  else if path == "/status" then RouteResult.render Page.streamingStatus
  else if path == "/topics" then RouteResult.render Page.topics
  else if path == "/apps" then RouteResult.render Page.streamingApps
  else if path == "/help" then RouteResult.render Page.help
  else if path == "/admin/login" then
    if isLoggedIn then RouteResult.navigate "/admin/dashboard"
    else RouteResult.render Page.adminLogin
  else if path == "/admin/dashboard" then
    if isLoggedIn then RouteResult.render Page.adminDashboard
    else RouteResult.navigate "/admin/login"
  else RouteResult.navigate "/"

/-- Modelled from the spec: a message of the Source Adapter (the backend
stream-processor implementation is absent from the source tree).  Identifier,
opaque body, acknowledgment token, and the source-tracked delivery count
used for poison-message detection. -/
structure Msg where
  id : Nat
  body : String
  ackToken : Nat
  receiveCount : Nat
deriving DecidableEq

/-- Modelled from the spec: the monotonically increasing counters of the
Metrics Registry, plus the counted unprocessable (poison) events. -/
structure Counters where
  messages_processed : Nat
  processing_errors : Nat
  sink_errors : Nat
  unprocessable : Nat
deriving DecidableEq

/-- Componentwise order on counters. -/
def Counters.le (a b : Counters) : Prop :=
  a.messages_processed ≤ b.messages_processed ∧
  a.processing_errors ≤ b.processing_errors ∧
  a.sink_errors ≤ b.sink_errors ∧
  a.unprocessable ≤ b.unprocessable

/-- Modelled from the spec: the Engine configuration, immutable for the
Engine's lifetime. -/
structure EngineConfig where
  batch_size : Nat
  poll_timeout : Nat
  idle_interval : Nat
  publish_timeout : Nat
  publish_retry_limit : Nat
  poison_threshold : Nat
deriving DecidableEq

/-- Modelled from the spec: the externally visible actions of one
processing iteration against the source and the sink. -/
inductive Action where
  | sinkConfirmed : Nat → Action
  | acked : Nat → Action
  | droppedPoison : Nat → Action
deriving DecidableEq

/-- Index of the first successful publish attempt, at most limit attempts;
none when the whole retry budget is exhausted.  The index equals the number
of failed attempts that preceded the success. -/
def firstOkAttempt (ok : Nat → Bool) (limit : Nat) : Option Nat :=
  (List.range limit).find? ok

/-- Modelled from the spec: processing of one message while RUNNING.
A message failing validation is neither published nor acknowledged; it is
dropped and counted unprocessable only once its receive count exceeds the
poison threshold.  A valid message is published with up to
publish_retry_limit attempts, each failure incrementing sink_errors; on a
confirmed publish the message is counted processed and acknowledged at the
source; on exhausted retries it is left unacknowledged. -/
def processMsg (cfg : EngineConfig) (valid : Msg → Bool)
    (pubOk : Nat → Nat → Bool) (c : Counters) (m : Msg) :
    Counters × List Action :=
  if valid m then
    match firstOkAttempt (pubOk m.id) cfg.publish_retry_limit with
    | some i =>
        ({ c with
            sink_errors := c.sink_errors + i
            messages_processed := c.messages_processed + 1 },
         [Action.sinkConfirmed m.id, Action.acked m.id])
    | none =>
        ({ c with
            sink_errors := c.sink_errors + cfg.publish_retry_limit }, [])
  else
    if cfg.poison_threshold < m.receiveCount then
      ({ c with
          processing_errors := c.processing_errors + 1
          unprocessable := c.unprocessable + 1 },
       [Action.droppedPoison m.id])
    else
      ({ c with processing_errors := c.processing_errors + 1 }, [])

/-- Modelled from the spec: one iteration's batch, processed in retrieval
order, partial-batch success being expected and correct. -/
def processBatch (cfg : EngineConfig) (valid : Msg → Bool)
    (pubOk : Nat → Nat → Bool) (c : Counters) :
    List Msg → Counters × List Action
  | [] => (c, [])
  | m :: rest =>
    let r1 := processMsg cfg valid pubOk c m
    let r2 := processBatch cfg valid pubOk r1.1 rest
    (r2.1, r1.2 ++ r2.2)

/-- Modelled from the spec: successive RUNNING iterations of the poll
loop, each polling one batch. -/
def runIterations (cfg : EngineConfig) (valid : Msg → Bool)
    (pubOk : Nat → Nat → Bool) (c : Counters) :
    List (List Msg) → Counters × List Action
  | [] => (c, [])
  | batch :: more =>
    let r1 := processBatch cfg valid pubOk c batch
    let r2 := runIterations cfg valid pubOk r1.1 more
    (r2.1, r1.2 ++ r2.2)

/-- Scan of a trace checking that every acknowledgment is preceded by a
sink confirmation of the same message id; conf holds the ids confirmed so
far. -/
def ackSafeAux (conf : List Nat) : List Action → Bool
  | [] => true
  | Action.sinkConfirmed i :: rest => ackSafeAux (i :: conf) rest
  | Action.acked i :: rest => conf.contains i && ackSafeAux conf rest
  | Action.droppedPoison _ :: rest => ackSafeAux conf rest

/-- A trace never acknowledges a message before its sink confirmation. -/
def ackSafe (tr : List Action) : Bool := ackSafeAux [] tr

/-- Ids confirmed after scanning a trace, newest first, on top of conf. -/
def confAfter (conf : List Nat) : List Action → List Nat
  | [] => conf
  | Action.sinkConfirmed i :: rest => confAfter (i :: conf) rest
  | _ :: rest => confAfter conf rest

/-- Modelled from the spec: the Metrics Registry, counters plus the
bounded rolling history of timestamped samples. -/
structure MetricsRegistry where
  counters : Counters
  history : List (String × Counters)
deriving DecidableEq

/-- Modelled from the spec: appending a timestamped sample to the rolling
history at its fixed capacity, oldest evicted first; counters untouched. -/
def sampleHistory (cap : Nat) (r : MetricsRegistry) (now : String) :
    MetricsRegistry :=
  { r with history := sliceLast cap (r.history ++ [(now, r.counters)]) }

/-- Modelled from the spec: the explicit control-plane flush, the only
operation that resets the counters; it is not invoked by any data-path
operation above. -/
def flushRegistry (r : MetricsRegistry) : MetricsRegistry :=
  { r with counters := ⟨0, 0, 0, 0⟩ }

/-- Modelled from the spec: the Engine lifecycle states. -/
inductive Lifecycle where
  | STOPPED
  | STARTING
  | RUNNING
  | STOPPING
deriving DecidableEq

/-- Modelled from the spec: the single mutable processor record — current
lifecycle state, start timestamp, poll workers ever spawned, last recorded
error, and the Metrics Registry. -/
structure ProcessorState where
  lifecycle : Lifecycle
  registry : MetricsRegistry
  pollLoopsSpawned : Nat
  startedAt : Option Nat
  lastError : Option String
deriving DecidableEq

/-- Outcome signalled by a start call. -/
inductive StartResult where
  | started
  | alreadyRunning
  | busy
deriving DecidableEq

/-- Modelled from the spec: start().  From STOPPED it spawns the one poll
worker and moves to RUNNING; while already RUNNING it is a no-op signalling
the already-running conflict; during a transition it reports busy. -/
def startEngine (now : Nat) (s : ProcessorState) :
    ProcessorState × StartResult :=
  match s.lifecycle with
  | Lifecycle.RUNNING => (s, StartResult.alreadyRunning)
  | Lifecycle.STOPPED =>
      ({ s with
          lifecycle := Lifecycle.RUNNING
          startedAt := some now
          pollLoopsSpawned := s.pollLoopsSpawned + 1 },
       StartResult.started)
  | _ => (s, StartResult.busy)

/-- Modelled from the spec: where the poll worker can be when stop() is
requested.  loopTop is the cancellation checkpoint at the top of each
iteration; polling is a poll in flight; publishing k is the in-flight
batch publish with k attempts already used; stopped is the terminal
STOPPED lifecycle state. -/
inductive LoopPhase where
  | loopTop
  | polling
  | publishing : Nat → LoopPhase
  | stopped
deriving DecidableEq

/-- Modelled from the spec: one step of the worker after stop() has been
requested, returning the next phase and the worst-case time the step may
take.  The checkpoint at loopTop observes the cancellation flag and exits
without issuing a new poll; an in-flight poll completes within
poll_timeout; each batch publish attempt completes within publish_timeout,
and the batch is abandoned to source redelivery once the retry budget is
exhausted. -/
def drainStep (cfg : EngineConfig) (pubOk : Nat → Bool) :
    LoopPhase → LoopPhase × Nat
  | LoopPhase.loopTop => (LoopPhase.stopped, 0)
  | LoopPhase.polling =>
      if cfg.publish_retry_limit == 0 then (LoopPhase.loopTop, cfg.poll_timeout)
      else (LoopPhase.publishing 0, cfg.poll_timeout)
  | LoopPhase.publishing k =>
      if pubOk k || decide (cfg.publish_retry_limit ≤ k + 1) then
        (LoopPhase.loopTop, cfg.publish_timeout)
      else
        (LoopPhase.publishing (k + 1), cfg.publish_timeout)
  | LoopPhase.stopped => (LoopPhase.stopped, 0)

/-- Run the draining worker for at most fuel steps, accumulating elapsed
worst-case time. -/
def drainRun (cfg : EngineConfig) (pubOk : Nat → Bool) :
    Nat → LoopPhase → LoopPhase × Nat
  | _, LoopPhase.stopped => (LoopPhase.stopped, 0)
  | 0, ph => (ph, 0)
  | fuel + 1, ph =>
      let s := drainStep cfg pubOk ph
      let r := drainRun cfg pubOk fuel s.1
      (r.1, s.2 + r.2)

/-- A publishing phase never records more used attempts than the retry
budget allows. -/
def phaseValid (cfg : EngineConfig) : LoopPhase → Prop
  | LoopPhase.publishing k => k < cfg.publish_retry_limit
  | _ => True

/-- Validation hook of the C3 batch: a message with body bad fails with
MessageFormatError, every other body passes. -/
def validC3 (m : Msg) : Bool := !(m.body == "bad")

/-- Sink oracle of the C3 batch: every publish attempt succeeds. -/
def pubOkC3 : Nat → Nat → Bool := fun _ _ => true

/-- Engine configuration of the C3 batch: retry budget 3, poison
threshold 5. -/
def cfgC3 : EngineConfig :=
  { batch_size := 10, poll_timeout := 100, idle_interval := 5
    publish_timeout := 50, publish_retry_limit := 3, poison_threshold := 5 }

/-- The C3 batch: five polled messages, four valid and one failing
validation, the failing one delivered rc times so far. -/
def batchC3 (rc : Nat) : List Msg :=
  [ { id := 1, body := "a", ackToken := 11, receiveCount := 1 }
  , { id := 2, body := "b", ackToken := 12, receiveCount := 1 }
  , { id := 3, body := "bad", ackToken := 13, receiveCount := rc }
  , { id := 4, body := "c", ackToken := 14, receiveCount := 1 }
  , { id := 5, body := "d", ackToken := 15, receiveCount := 1 } ]

/-- Is an action an acknowledgment at the source. -/
def isAck : Action → Bool
  | Action.acked _ => true
  | _ => false

/-- A message's publish succeeds within the configured retry budget. -/
def publishSucceeds (cfg : EngineConfig) (pubOk : Nat → Nat → Bool)
    (m : Msg) : Bool :=
  (firstOkAttempt (pubOk m.id) cfg.publish_retry_limit).isSome

/-- Append one element and keep the last 10, the per-series step of
updateChartData. -/
def appendClamp (acc : List α) (x : α) : List α := sliceLast 10 (acc ++ [x])

/-- A chart state already at the 10-sample capacity. -/
def chart10 : ChartData :=
  { labels := ["1", "2", "3", "4", "5", "6", "7", "8", "9", "10"]
    messagesData := [0, 1, 2, 3, 4, 5, 6, 7, 8, 9]
    errorsData := [0, 0, 0, 0, 0, 0, 0, 0, 0, 0] }

/-- A processor state whose worker is RUNNING. -/
def runningState : ProcessorState :=
  { lifecycle := Lifecycle.RUNNING
    registry := { counters := ⟨0, 0, 0, 0⟩, history := [] }
    pollLoopsSpawned := 1
    startedAt := some 0
    lastError := none }

/-- Claim C1: the create-topic validation is claimed to reject exactly the
parameters the naming grammar forbids — in particular a name equal to
. or .. or longer than 249 characters.  The code disagrees with the
repository's own documented validation rules: validateForm accepts the
name consisting of a single dot (and a double dot, an underscore-led name,
and a 250-character name), all with valid partition and replication
counts, while the documented grammar rejects each of them. -/
theorem C1_code_accepts_invalid_names :
    validateForm { name := ".", partitions := JSNum.num 1,
                   replication := JSNum.num 1 } = true ∧
    specTopicNameOk "." = false ∧
    validateForm { name := "..", partitions := JSNum.num 1,
                   replication := JSNum.num 1 } = true ∧
    specTopicNameOk ".." = false ∧
    validateForm { name := "_x", partitions := JSNum.num 1,
                   replication := JSNum.num 1 } = true ∧
    specTopicNameOk "_x" = false := by
  decide

/-- Claim C3: in one iteration polling five messages of which four pass
validation and one fails with MessageFormatError, messages_processed grows
by exactly 4, the failing message is neither published nor acknowledged,
the unprocessable count is 1 when its receive count exceeds the poison
threshold and 0 otherwise, and exactly 4 messages are acknowledged. -/
theorem C3_batch_of_five :
    (processBatch cfgC3 validC3 pubOkC3 ⟨0, 0, 0, 0⟩
        (batchC3 6)).1.messages_processed = 4 ∧
    (processBatch cfgC3 validC3 pubOkC3 ⟨0, 0, 0, 0⟩
        (batchC3 6)).1.unprocessable = 1 ∧
    (processBatch cfgC3 validC3 pubOkC3 ⟨0, 0, 0, 0⟩
        (batchC3 3)).1.messages_processed = 4 ∧
    (processBatch cfgC3 validC3 pubOkC3 ⟨0, 0, 0, 0⟩
        (batchC3 3)).1.unprocessable = 0 ∧
    (processBatch cfgC3 validC3 pubOkC3 ⟨0, 0, 0, 0⟩
        (batchC3 6)).2.count (Action.acked 3) = 0 ∧
    (processBatch cfgC3 validC3 pubOkC3 ⟨0, 0, 0, 0⟩
        (batchC3 6)).2.count (Action.sinkConfirmed 3) = 0 ∧
    ((processBatch cfgC3 validC3 pubOkC3 ⟨0, 0, 0, 0⟩
        (batchC3 6)).2.countP isAck) = 4 ∧
    ((processBatch cfgC3 validC3 pubOkC3 ⟨0, 0, 0, 0⟩
        (batchC3 3)).2.countP isAck) = 4 := by
  decide

/-- Claim C8: handleInputChange stores parseInt of the raw field value, so
an empty partitions input becomes NaN; NaN < 1 is false in JavaScript, so
validateForm accepts a state whose name is grammar-valid but whose
partitions is NaN, and the request would be submitted. -/
theorem C8_nan_partitions_accepted :
    parseInt "" = JSNum.nan ∧
    (handleInputChange
        { name := "my-topic", partitions := JSNum.num 3,
          replication := JSNum.num 3 } "partitions" "").partitions
      = JSNum.nan ∧
    validateForm (handleInputChange
        { name := "my-topic", partitions := JSNum.num 3,
          replication := JSNum.num 3 } "partitions" "") = true ∧
    specTopicNameOk "my-topic" = true := by
  decide

/-- Claim C6: start() while the Engine is already RUNNING is a no-op that
signals the already-running conflict: the whole processor state — the
lifecycle, the registry, the number of poll workers ever spawned, the
start timestamp, the last error — is returned unchanged. -/
theorem C6_start_while_running_noop (now : Nat) (s : ProcessorState)
    (h : s.lifecycle = Lifecycle.RUNNING) :
    startEngine now s = (s, StartResult.alreadyRunning) := by
  unfold startEngine
  rw [h]

/-- Witness for C6 at a concrete RUNNING state. -/
theorem C6_witness :
    startEngine 7 runningState = (runningState, StartResult.alreadyRunning) :=
  C6_start_while_running_noop 7 runningState rfl

/-- Claim C9: the axios response interceptor removes the stored user and
redirects to the admin login page exactly on a 401 response, propagating
the original error; on any other error it touches nothing and propagates
the error unchanged. -/
theorem C9_unauthorized_interceptor (st : ClientState) (e : ApiError) :
    (is401 e = true →
       (responseErrorInterceptor st e).1.storedUser = none ∧
       (responseErrorInterceptor st e).1.locationHref = "/admin/login" ∧
       (responseErrorInterceptor st e).2 = e) ∧
    (is401 e = false → responseErrorInterceptor st e = (st, e)) := by
  constructor <;> intro h <;> simp [responseErrorInterceptor, h]

/-- Witness for C9 at a 401 error and at a 500 error. -/
theorem C9_witness :
    (responseErrorInterceptor ⟨some "u", "/admin/dashboard"⟩
        ⟨some 401⟩).1.storedUser = none ∧
    responseErrorInterceptor ⟨some "u", "/admin/dashboard"⟩ ⟨some 500⟩
      = (⟨some "u", "/admin/dashboard"⟩, ⟨some 500⟩) :=
  ⟨((C9_unauthorized_interceptor ⟨some "u", "/admin/dashboard"⟩
        ⟨some 401⟩).1 (by decide)).1,
   (C9_unauthorized_interceptor ⟨some "u", "/admin/dashboard"⟩
        ⟨some 500⟩).2 (by decide)⟩

/-- Claim C10: the router renders the admin dashboard only when logged in;
when not logged in the dashboard path redirects to the login page, when
already logged in the login path redirects to the dashboard, and every
unknown path redirects to the root. -/
theorem C10_admin_routing (b : Bool) (p : String) :
    (appRoute b p = RouteResult.render Page.adminDashboard → b = true) ∧
    appRoute false "/admin/dashboard" = RouteResult.navigate "/admin/login" ∧
    appRoute true "/admin/login" = RouteResult.navigate "/admin/dashboard" ∧
    (p ≠ "/" → p ≠ "/status" → p ≠ "/topics" → p ≠ "/apps" → p ≠ "/help" →
     p ≠ "/admin/login" → p ≠ "/admin/dashboard" →
     appRoute b p = RouteResult.navigate "/") := by
  refine ⟨?_, by decide, by decide, ?_⟩
  · intro h
    cases b with
    | true => rfl
    | false =>
      exfalso
      simp only [appRoute] at h
      split_ifs at h <;> simp_all
  · intro h1 h2 h3 h4 h5 h6 h7
    have e1 : (p == "/") = false := beq_eq_false_iff_ne.mpr h1
    have e2 : (p == "/status") = false := beq_eq_false_iff_ne.mpr h2
    have e3 : (p == "/topics") = false := beq_eq_false_iff_ne.mpr h3
    have e4 : (p == "/apps") = false := beq_eq_false_iff_ne.mpr h4
    have e5 : (p == "/help") = false := beq_eq_false_iff_ne.mpr h5
    have e6 : (p == "/admin/login") = false := beq_eq_false_iff_ne.mpr h6
    have e7 : (p == "/admin/dashboard") = false := beq_eq_false_iff_ne.mpr h7
    simp [appRoute, e1, e2, e3, e4, e5, e6, e7]

/-- Witness for C10: an unknown path redirects to the root. -/
theorem C10_witness :
    appRoute true "/nowhere" = RouteResult.navigate "/" :=
  (C10_admin_routing true "/nowhere").2.2.2 (by decide) (by decide)
    (by decide) (by decide) (by decide) (by decide) (by decide)

theorem counters_le_refl (c : Counters) : Counters.le c c :=
  ⟨Nat.le_refl _, Nat.le_refl _, Nat.le_refl _, Nat.le_refl _⟩

theorem counters_le_trans {a b c : Counters} (h1 : Counters.le a b)
    (h2 : Counters.le b c) : Counters.le a c :=
  ⟨Nat.le_trans h1.1 h2.1, Nat.le_trans h1.2.1 h2.2.1,
   Nat.le_trans h1.2.2.1 h2.2.2.1, Nat.le_trans h1.2.2.2 h2.2.2.2⟩

theorem processMsg_counters_le (cfg : EngineConfig) (valid : Msg → Bool)
    (pubOk : Nat → Nat → Bool) (c : Counters) (m : Msg) :
    Counters.le c (processMsg cfg valid pubOk c m).1 := by
  unfold processMsg
  split
  · split <;> simp [Counters.le]
  · split <;> simp [Counters.le]

theorem processBatch_counters_le (cfg : EngineConfig) (valid : Msg → Bool)
    (pubOk : Nat → Nat → Bool) (c : Counters) (batch : List Msg) :
    Counters.le c (processBatch cfg valid pubOk c batch).1 := by
  induction batch generalizing c with
  | nil => exact counters_le_refl c
  | cons m rest ih =>
    exact counters_le_trans (processMsg_counters_le cfg valid pubOk c m)
      (ih (processMsg cfg valid pubOk c m).1)

theorem runIterations_counters_le (cfg : EngineConfig) (valid : Msg → Bool)
    (pubOk : Nat → Nat → Bool) (c : Counters) (batches : List (List Msg)) :
    Counters.le c (runIterations cfg valid pubOk c batches).1 := by
  induction batches generalizing c with
  | nil => exact counters_le_refl c
  | cons b more ih =>
    exact counters_le_trans (processBatch_counters_le cfg valid pubOk c b)
      (ih (processBatch cfg valid pubOk c b).1)

/-- Claim C4: the counters messages_processed, processing_errors and
sink_errors are monotonically non-decreasing under every data-path
operation — per-message processing, whole batches, any sequence of loop
iterations — and the rolling-history sampler leaves the counters
untouched; only the explicit control-plane flush resets them, and no
data-path operation invokes it. -/
theorem C4_counters_monotone :
    (∀ cfg valid pubOk c m,
       Counters.le c (processMsg cfg valid pubOk c m).1) ∧
    (∀ cfg valid pubOk c batch,
       Counters.le c (processBatch cfg valid pubOk c batch).1) ∧
    (∀ cfg valid pubOk c batches,
       Counters.le c (runIterations cfg valid pubOk c batches).1) ∧
    (∀ cap r now, (sampleHistory cap r now).counters = r.counters) :=
  ⟨processMsg_counters_le, processBatch_counters_le,
   runIterations_counters_le, fun _ _ _ => rfl⟩

theorem sliceLast_length_le (n : Nat) (l : List α) :
    (sliceLast n l).length ≤ n := by
  simp [sliceLast]
  omega

theorem sliceLast_of_len_le {n : Nat} {l : List α} (h : l.length ≤ n) :
    sliceLast n l = l := by
  simp [sliceLast, Nat.sub_eq_zero_of_le h]

theorem sliceLast_stable (n : Nat) (l : List α) (x : α) :
    sliceLast n (sliceLast n l ++ [x]) = sliceLast n (l ++ [x]) := by
  rcases Nat.le_total l.length n with h | h
  · rw [sliceLast_of_len_le h]
  · rcases Nat.eq_zero_or_pos n with hn | hn
    · subst hn
      simp [sliceLast]
    · unfold sliceLast
      simp only [List.length_append, List.length_drop, List.length_cons,
        List.length_nil, Nat.zero_add]
      have e1 : l.length - (l.length - n) + 1 - n = 1 := by omega
      have e2 : l.length + 1 - n = (l.length - n) + 1 := by omega
      rw [e1, e2]
      rw [List.drop_append_of_le_length (by simp; omega),
        List.drop_append_of_le_length (by omega)]
      rw [List.drop_drop]

theorem foldl_appendClamp (xs : List α) :
    ∀ l0 : List α,
      xs.foldl appendClamp (sliceLast 10 l0) = sliceLast 10 (l0 ++ xs) := by
  induction xs with
  | nil => intro l0; simp
  | cons x rest ih =>
    intro l0
    have step : appendClamp (sliceLast 10 l0) x = sliceLast 10 (l0 ++ [x]) :=
      sliceLast_stable 10 l0 x
    calc (x :: rest).foldl appendClamp (sliceLast 10 l0)
        = rest.foldl appendClamp (sliceLast 10 (l0 ++ [x])) := by
          simp [List.foldl_cons, step]
      _ = sliceLast 10 ((l0 ++ [x]) ++ rest) := ih (l0 ++ [x])
      _ = sliceLast 10 (l0 ++ x :: rest) := by
          rw [List.append_assoc]
          rfl

theorem runChartUpdates_components (samples : List (MetricsSnapshot × String)) :
    ∀ cd : ChartData,
      samples.foldl (fun cd s => updateChartData cd s.1 s.2) cd =
        { labels := (samples.map Prod.snd).foldl appendClamp cd.labels
          messagesData :=
            (samples.map (fun s => s.1.messages_processed)).foldl
              appendClamp cd.messagesData
          errorsData :=
            (samples.map (fun s => s.1.processing_errors)).foldl
              appendClamp cd.errorsData } := by
  induction samples with
  | nil => intro cd; rfl
  | cons s rest ih =>
    intro cd
    simp only [List.foldl_cons, List.map_cons]
    exact ih (updateChartData cd s.1 s.2)

/-- Claim C5: the chart history is a fixed-capacity ring buffer of
capacity 10: every update leaves each series no longer than 10; an update
at capacity evicts exactly the oldest sample; and after any sequence of
fetch cycles from the initial empty chart each series holds exactly the
last 10 appended samples, in order. -/
theorem C5_ring_buffer :
    (∀ prev m now,
       (updateChartData prev m now).labels.length ≤ 10 ∧
       (updateChartData prev m now).messagesData.length ≤ 10 ∧
       (updateChartData prev m now).errorsData.length ≤ 10) ∧
    (∀ prev m now, prev.labels.length = 10 →
       (updateChartData prev m now).labels = prev.labels.tail ++ [now]) ∧
    (∀ samples,
       (runChartUpdates samples).labels
         = sliceLast 10 (samples.map Prod.snd) ∧
       (runChartUpdates samples).messagesData
         = sliceLast 10 (samples.map (fun s => s.1.messages_processed)) ∧
       (runChartUpdates samples).errorsData
         = sliceLast 10 (samples.map (fun s => s.1.processing_errors))) := by
  refine ⟨?_, ?_, ?_⟩
  · intro prev m now
    exact ⟨sliceLast_length_le 10 _, sliceLast_length_le 10 _,
      sliceLast_length_le 10 _⟩
  · intro prev m now h
    show sliceLast 10 (prev.labels ++ [now]) = prev.labels.tail ++ [now]
    unfold sliceLast
    rw [List.length_append, h]
    simp only [List.length_cons, List.length_nil]
    have e1 : 10 + (0 + 1) - 10 = 1 := by omega
    rw [e1, List.drop_append_of_le_length (by omega), List.drop_one]
  · intro samples
    have h := runChartUpdates_components samples initialChartData
    have hinit : ∀ {β : Type} (xs : List β),
        xs.foldl appendClamp ([] : List β) = sliceLast 10 xs := by
      intro β xs
      have h0 := foldl_appendClamp xs ([] : List β)
      simpa [sliceLast] using h0
    unfold runChartUpdates
    rw [h]
    exact ⟨hinit _, hinit _, hinit _⟩

/-- Witness for C5: updating the chart at capacity evicts the oldest
label. -/
theorem C5_witness :
    (updateChartData chart10 ⟨1, 2⟩ "t").labels
      = chart10.labels.tail ++ ["t"] :=
  C5_ring_buffer.2.1 chart10 ⟨1, 2⟩ "t" (by rfl)

theorem ackSafeAux_append (conf : List Nat) (a b : List Action) :
    ackSafeAux conf (a ++ b)
      = (ackSafeAux conf a && ackSafeAux (confAfter conf a) b) := by
  induction a generalizing conf with
  | nil => simp [ackSafeAux, confAfter]
  | cons hd tl ih =>
    cases hd with
    | sinkConfirmed i => simp [ackSafeAux, confAfter, ih]
    | acked i => simp [ackSafeAux, confAfter, ih, Bool.and_assoc]
    | droppedPoison i => simp [ackSafeAux, confAfter, ih]

theorem processMsg_ackSafeAux (cfg : EngineConfig) (valid : Msg → Bool)
    (pubOk : Nat → Nat → Bool) (c : Counters) (m : Msg) (conf : List Nat) :
    ackSafeAux conf (processMsg cfg valid pubOk c m).2 = true := by
  unfold processMsg
  split
  · split <;> simp [ackSafeAux]
  · split <;> simp [ackSafeAux]

theorem processBatch_ackSafeAux (cfg : EngineConfig) (valid : Msg → Bool)
    (pubOk : Nat → Nat → Bool) :
    ∀ (batch : List Msg) (c : Counters) (conf : List Nat),
      ackSafeAux conf (processBatch cfg valid pubOk c batch).2 = true := by
  intro batch
  induction batch with
  | nil => intro c conf; rfl
  | cons m rest ih =>
    intro c conf
    show ackSafeAux conf ((processMsg cfg valid pubOk c m).2
      ++ (processBatch cfg valid pubOk (processMsg cfg valid pubOk c m).1
            rest).2) = true
    rw [ackSafeAux_append, processMsg_ackSafeAux, ih]
    rfl

theorem runIterations_ackSafeAux (cfg : EngineConfig) (valid : Msg → Bool)
    (pubOk : Nat → Nat → Bool) :
    ∀ (batches : List (List Msg)) (c : Counters) (conf : List Nat),
      ackSafeAux conf (runIterations cfg valid pubOk c batches).2 = true := by
  intro batches
  induction batches with
  | nil => intro c conf; rfl
  | cons b more ih =>
    intro c conf
    show ackSafeAux conf ((processBatch cfg valid pubOk c b).2
      ++ (runIterations cfg valid pubOk (processBatch cfg valid pubOk c b).1
            more).2) = true
    rw [ackSafeAux_append, processBatch_ackSafeAux, ih]
    rfl

theorem processMsg_count_acked (cfg : EngineConfig) (valid : Msg → Bool)
    (pubOk : Nat → Nat → Bool) (c : Counters) (m : Msg) (j : Nat) :
    (processMsg cfg valid pubOk c m).2.count (Action.acked j)
      = if (m.id == j && (valid m && publishSucceeds cfg pubOk m))
        then 1 else 0 := by
  cases hv : valid m with
  | false =>
    simp only [processMsg, hv, Bool.false_eq_true, if_false, Bool.false_and,
      Bool.and_false]
    split <;> simp [List.count_cons]
  | true =>
    cases hfind : firstOkAttempt (pubOk m.id) cfg.publish_retry_limit with
    | none => simp [processMsg, publishSucceeds, hv, hfind]
    | some i =>
      by_cases hj : m.id = j
      · subst hj
        simp [processMsg, publishSucceeds, hv, hfind, List.count_cons]
      · simp [processMsg, publishSucceeds, hv, hfind, hj, List.count_cons]

theorem processBatch_count_acked (cfg : EngineConfig) (valid : Msg → Bool)
    (pubOk : Nat → Nat → Bool) (j : Nat) :
    ∀ (batch : List Msg) (c : Counters),
      (processBatch cfg valid pubOk c batch).2.count (Action.acked j)
        = batch.countP
            (fun x => x.id == j && (valid x && publishSucceeds cfg pubOk x)) := by
  intro batch
  induction batch with
  | nil => intro c; rfl
  | cons m rest ih =>
    intro c
    show ((processMsg cfg valid pubOk c m).2
        ++ (processBatch cfg valid pubOk (processMsg cfg valid pubOk c m).1
              rest).2).count (Action.acked j) = _
    rw [List.count_append, processMsg_count_acked, ih, List.countP_cons]
    omega

theorem runIterations_count_acked (cfg : EngineConfig) (valid : Msg → Bool)
    (pubOk : Nat → Nat → Bool) (j : Nat) :
    ∀ (batches : List (List Msg)) (c : Counters),
      (runIterations cfg valid pubOk c batches).2.count (Action.acked j)
        = batches.flatten.countP
            (fun x => x.id == j && (valid x && publishSucceeds cfg pubOk x)) := by
  intro batches
  induction batches with
  | nil => intro c; rfl
  | cons b more ih =>
    intro c
    show ((processBatch cfg valid pubOk c b).2
        ++ (runIterations cfg valid pubOk (processBatch cfg valid pubOk c b).1
              more).2).count (Action.acked j) = _
    rw [List.count_append, processBatch_count_acked, ih, List.flatten_cons,
      List.countP_append]

theorem countP_id_eq_one {l : List Msg} {m : Msg} (hm : m ∈ l)
    (hnd : (l.map Msg.id).Nodup) {q : Msg → Bool} (hq : q m = true) :
    l.countP (fun x => x.id == m.id && q x) = 1 := by
  induction l with
  | nil => cases hm
  | cons a tl ih =>
    rw [List.map_cons, List.nodup_cons] at hnd
    have hcons := hnd
    rcases List.mem_cons.mp hm with rfl | hmtl
    · rw [List.countP_cons, List.countP_eq_zero.mpr ?_]
      · simp [hq]
      · intro x hx
        simp only [Bool.and_eq_true, beq_iff_eq, not_and]
        intro hxid
        exact absurd (hxid ▸ List.mem_map_of_mem Msg.id hx) hcons.1
    · have hane : (a.id == m.id && q a) = false := by
        have hne : a.id ≠ m.id :=
          fun he => hcons.1 (he ▸ List.mem_map_of_mem Msg.id hmtl)
        simp [hne]
      rw [List.countP_cons, ih hmtl hcons.2]
      simp [hane]

theorem countP_id_eq_zero {l : List Msg} {m : Msg} (hm : m ∈ l)
    (hnd : (l.map Msg.id).Nodup) {q : Msg → Bool} (hq : q m = false) :
    l.countP (fun x => x.id == m.id && q x) = 0 := by
  rw [List.countP_eq_zero]
  intro x hx
  simp only [Bool.and_eq_true, beq_iff_eq, not_and]
  intro hxid hqx
  have hxm : x = m := List.inj_on_of_nodup_map hnd hx hm hxid
  rw [hxm, hq] at hqx
  cases hqx

/-- Claim C2: in every reachable state of the processing loop no message
is acknowledged at the source before the sink has confirmed it — the trace
of any sequence of iterations is acknowledgment-safe — and, with in-flight
message ids unique, every valid message whose publish succeeds is
acknowledged exactly once, while a message failing validation is never
acknowledged. -/
theorem C2_ack_after_confirm_exactly_once (cfg : EngineConfig)
    (valid : Msg → Bool) (pubOk : Nat → Nat → Bool) (c : Counters)
    (batches : List (List Msg))
    (hids : (batches.flatten.map Msg.id).Nodup) :
    ackSafe (runIterations cfg valid pubOk c batches).2 = true ∧
    ∀ b, b ∈ batches → ∀ m, m ∈ b →
      (valid m = true → publishSucceeds cfg pubOk m = true →
        (runIterations cfg valid pubOk c batches).2.count
          (Action.acked m.id) = 1) ∧
      (valid m = false →
        (runIterations cfg valid pubOk c batches).2.count
          (Action.acked m.id) = 0) := by
  constructor
  · exact runIterations_ackSafeAux cfg valid pubOk batches c []
  · intro b hb m hm
    have hmem : m ∈ batches.flatten := List.mem_flatten_of_mem hb hm
    constructor
    · intro hv hp
      rw [runIterations_count_acked]
      exact countP_id_eq_one hmem hids (by simp [hv, hp])
    · intro hv
      rw [runIterations_count_acked]
      exact countP_id_eq_zero hmem hids (by simp [hv])

/-- Witness for C2 at the concrete five-message batch: the first message
is acknowledged exactly once and the trace is acknowledgment-safe. -/
theorem C2_witness :
    ackSafe (runIterations cfgC3 validC3 pubOkC3 ⟨0, 0, 0, 0⟩
      [batchC3 6]).2 = true ∧
    (runIterations cfgC3 validC3 pubOkC3 ⟨0, 0, 0, 0⟩
      [batchC3 6]).2.count (Action.acked 1) = 1 :=
  have h := C2_ack_after_confirm_exactly_once cfgC3 validC3 pubOkC3
    ⟨0, 0, 0, 0⟩ [batchC3 6] (by decide)
  ⟨h.1,
   (h.2 (batchC3 6) (by simp) (⟨1, "a", 11, 1⟩ : Msg)
      (by simp [batchC3])).1 (by decide) (by decide)⟩

theorem drainRun_stopped (cfg : EngineConfig) (pubOk : Nat → Bool)
    (fuel : Nat) :
    drainRun cfg pubOk fuel LoopPhase.stopped = (LoopPhase.stopped, 0) := by
  cases fuel <;> rfl

theorem drainRun_succ (cfg : EngineConfig) (pubOk : Nat → Bool) (f : Nat)
    (ph : LoopPhase) (h : ph ≠ LoopPhase.stopped) :
    drainRun cfg pubOk (f + 1) ph =
      ((drainRun cfg pubOk f (drainStep cfg pubOk ph).1).1,
       (drainStep cfg pubOk ph).2
         + (drainRun cfg pubOk f (drainStep cfg pubOk ph).1).2) := by
  cases ph with
  | stopped => exact absurd rfl h
  | loopTop => rfl
  | polling => rfl
  | publishing k => rfl

theorem drainRun_loopTop (cfg : EngineConfig) (pubOk : Nat → Bool)
    {fuel : Nat} (h : 1 ≤ fuel) :
    drainRun cfg pubOk fuel LoopPhase.loopTop = (LoopPhase.stopped, 0) := by
  cases fuel with
  | zero => omega
  | succ f =>
    rw [drainRun_succ cfg pubOk f LoopPhase.loopTop (by decide)]
    simp [drainStep, drainRun_stopped]

theorem drainRun_publishing (cfg : EngineConfig) (pubOk : Nat → Bool) :
    ∀ (fuel k : Nat), k < cfg.publish_retry_limit →
      cfg.publish_retry_limit - k + 2 ≤ fuel →
      (drainRun cfg pubOk fuel (LoopPhase.publishing k)).1
          = LoopPhase.stopped ∧
      (drainRun cfg pubOk fuel (LoopPhase.publishing k)).2
          ≤ (cfg.publish_retry_limit - k) * cfg.publish_timeout := by
  intro fuel
  induction fuel with
  | zero => intro k hk hf; omega
  | succ f ih =>
    intro k hk hf
    rw [drainRun_succ cfg pubOk f (LoopPhase.publishing k)
      (by intro hc; exact LoopPhase.noConfusion hc)]
    by_cases hstop :
        (pubOk k || decide (cfg.publish_retry_limit ≤ k + 1)) = true
    · have hstep : drainStep cfg pubOk (LoopPhase.publishing k)
          = (LoopPhase.loopTop, cfg.publish_timeout) := by
        simp [drainStep, hstop]
      rw [hstep]
      rw [drainRun_loopTop cfg pubOk (by omega)]
      refine ⟨rfl, ?_⟩
      simpa using Nat.le_mul_of_pos_left cfg.publish_timeout (by omega)
    · have hstep : drainStep cfg pubOk (LoopPhase.publishing k)
          = (LoopPhase.publishing (k + 1), cfg.publish_timeout) := by
        simp [drainStep, hstop]
      rw [hstep]
      have hklt : k + 1 < cfg.publish_retry_limit := by
        rcases Bool.or_eq_false_iff.mp (Bool.eq_false_iff.mpr hstop) with ⟨-, h2⟩
        have := of_decide_eq_false h2
        omega
      have ihres := ih (k + 1) hklt (by omega)
      refine ⟨ihres.1, ?_⟩
      have hexp : (cfg.publish_retry_limit - k) * cfg.publish_timeout
          = cfg.publish_timeout
            + (cfg.publish_retry_limit - (k + 1)) * cfg.publish_timeout := by
        have hsplit : cfg.publish_retry_limit - k
            = (cfg.publish_retry_limit - (k + 1)) + 1 := by omega
        rw [hsplit, Nat.add_mul, Nat.one_mul, Nat.add_comm]
      rw [hexp]
      exact Nat.add_le_add_left ihres.2 _

/-- Claim C7: once stop() is requested while RUNNING, the worker reaches
the STOPPED state within poll_timeout + publish_timeout ×
publish_retry_limit from any point of the loop: the checkpoint at the top
of the loop exits immediately without issuing a new poll, and otherwise
only the in-flight poll and the in-flight batch publish are completed. -/
theorem C7_stop_bounded_termination (cfg : EngineConfig)
    (pubOk : Nat → Bool) (ph : LoopPhase) (h : phaseValid cfg ph) :
    drainStep cfg pubOk LoopPhase.loopTop = (LoopPhase.stopped, 0) ∧
    (drainRun cfg pubOk (cfg.publish_retry_limit + 3) ph).1
        = LoopPhase.stopped ∧
    (drainRun cfg pubOk (cfg.publish_retry_limit + 3) ph).2
        ≤ cfg.poll_timeout
          + cfg.publish_timeout * cfg.publish_retry_limit := by
  refine ⟨rfl, ?_⟩
  cases ph with
  | stopped =>
    rw [drainRun_stopped]
    exact ⟨rfl, Nat.zero_le _⟩
  | loopTop =>
    rw [drainRun_loopTop cfg pubOk (by omega)]
    exact ⟨rfl, Nat.zero_le _⟩
  | publishing k =>
    have hk : k < cfg.publish_retry_limit := h
    have hres := drainRun_publishing cfg pubOk
      (cfg.publish_retry_limit + 3) k hk (by omega)
    refine ⟨hres.1, ?_⟩
    calc (drainRun cfg pubOk (cfg.publish_retry_limit + 3)
            (LoopPhase.publishing k)).2
        ≤ (cfg.publish_retry_limit - k) * cfg.publish_timeout := hres.2
      _ ≤ cfg.publish_retry_limit * cfg.publish_timeout :=
          Nat.mul_le_mul_right _ (Nat.sub_le _ _)
      _ = cfg.publish_timeout * cfg.publish_retry_limit := Nat.mul_comm _ _
      _ ≤ cfg.poll_timeout
            + cfg.publish_timeout * cfg.publish_retry_limit :=
          Nat.le_add_left _ _
  | polling =>
    rw [show cfg.publish_retry_limit + 3
        = (cfg.publish_retry_limit + 2) + 1 from rfl]
    rw [drainRun_succ cfg pubOk (cfg.publish_retry_limit + 2)
      LoopPhase.polling (by decide)]
    by_cases h0 : cfg.publish_retry_limit = 0
    · have hstep : drainStep cfg pubOk LoopPhase.polling
          = (LoopPhase.loopTop, cfg.poll_timeout) := by
        simp [drainStep, h0]
      rw [hstep]
      rw [drainRun_loopTop cfg pubOk (by omega)]
      exact ⟨rfl, by omega⟩
    · have hstep : drainStep cfg pubOk LoopPhase.polling
          = (LoopPhase.publishing 0, cfg.poll_timeout) := by
        simp [drainStep, h0]
      rw [hstep]
      have hres := drainRun_publishing cfg pubOk
        (cfg.publish_retry_limit + 2) 0 (by omega) (by omega)
      refine ⟨hres.1, ?_⟩
      have h2 : (drainRun cfg pubOk (cfg.publish_retry_limit + 2)
          (LoopPhase.publishing 0)).2
          ≤ cfg.publish_timeout * cfg.publish_retry_limit := by
        have := hres.2
        rwa [Nat.sub_zero, Nat.mul_comm] at this
      exact Nat.add_le_add_left h2 _

/-- Witness for C7: with the concrete configuration and a sink that keeps
failing, a worker caught mid-poll reaches STOPPED within the bound. -/
theorem C7_witness :
    (drainRun cfgC3 (fun _ => false) (cfgC3.publish_retry_limit + 3)
        LoopPhase.polling).1 = LoopPhase.stopped ∧
    (drainRun cfgC3 (fun _ => false) (cfgC3.publish_retry_limit + 3)
        LoopPhase.polling).2
      ≤ cfgC3.poll_timeout
        + cfgC3.publish_timeout * cfgC3.publish_retry_limit :=
  (C7_stop_bounded_termination cfgC3 (fun _ => false) LoopPhase.polling
    trivial).2

end DataStreaming
